import Mathlib

/-!
Verification of the bank_insight dashboard pipeline (src/app.py).

The program loads a transaction dataframe, filters it by the sidebar
selections (`df.query` on Year / customer_segment / businessindustrytype,
line 50), and computes KPIs and groupby aggregations over the filtered
frame.  We shallowly embed the dataframe as a list of records and each
pandas operation as a Lean function on lists:

  * `filtered_df`     — `df.query("Year == @selected_year and ...")`
    (pandas `==` against a list means membership, i.e. `isin`);
  * `total_sales`     — `filtered_df["Amount"].sum()` (line 61);
  * `total_customers` — `filtered_df["customer_segment"].nunique()` (line 62);
  * `avg_transaction` — `filtered_df["Amount"].mean()` (line 63); a pandas
    mean of an empty series is the float NaN, so the embedding returns a
    value of `PdFloat`, whose `nan` constructor models that NaN;
  * `sum_by`          — `groupby(col)["Amount"].sum().reset_index()`
    (lines 75, 86, 98, 125); pandas groupby sorts the group keys, so the
    keys are the distinct values in ascending order;
  * `sortByCategory`  — the `pd.Categorical(..., categories=order)` +
    `sort_values` re-ordering applied to the weekday and month
    aggregations (lines 87-89 and 126-131); pandas sorts by the position
    of the key in the category list, values outside the list sort last;
  * `sort_values_desc` / `insight_top` — the insight summary lines
    `agg.sort_values('Amount', ascending=False).iloc[0,0]` (lines
    149-151); `.iloc[0,0]` on an empty frame raises `IndexError`, which
    the embedding surfaces as `Except.error "IndexError"`.
-/

/-- One row of the loaded dataframe, with the derived calendar columns
(`Year`, `Month`, `Day_Name`) that `load_data` adds (lines 21-24). -/
structure Record where
  Date : Int
  Amount : ℚ
  customer_segment : String
  businessindustrytype : String
  Year : Int
  Month : String
  Day_Name : String
deriving DecidableEq, Repr

/-- Line 50: `df.query("Year == @selected_year and customer_segment ==
@selected_segment and businessindustrytype == @selected_industry")`.
Comparing a column with a list in pandas `query` is membership, so a row
survives iff all three columns lie in the respective selection lists. -/
def filtered_df (df : List Record) (selected_year : List Int)
    (selected_segment selected_industry : List String) : List Record :=
  df.filter (fun r =>
    decide (r.Year ∈ selected_year) &&
    decide (r.customer_segment ∈ selected_segment) &&
    decide (r.businessindustrytype ∈ selected_industry))

/-- Line 61: `filtered_df["Amount"].sum()`. -/
def total_sales (records : List Record) : ℚ :=
  (records.map Record.Amount).sum

/-- Line 62: `filtered_df["customer_segment"].nunique()` — the number of
distinct segment values. -/
def total_customers (records : List Record) : Nat :=
  ((records.map Record.customer_segment).dedup).length

/-- A pandas float scalar: either the error value NaN or a number. -/
inductive PdFloat where
  | nan : PdFloat
  | val : ℚ → PdFloat
deriving DecidableEq, Repr

/-- Line 63: `filtered_df["Amount"].mean()`.  Pandas returns NaN for the
mean of an empty series and the arithmetic mean otherwise. -/
def avg_transaction (records : List Record) : PdFloat :=
  if records.length = 0 then PdFloat.nan
  else PdFloat.val ((records.map Record.Amount).sum / (records.length : ℚ))

/-- The group keys produced by `groupby(col)` with the default
`sort=True`: the distinct values of the column, in ascending order. -/
def groupKeys (records : List Record) (key : Record → String) : List String :=
  ((records.map key).dedup).mergeSort (fun a b => decide (a ≤ b))

/-- The summed `Amount` of the rows of one group. -/
def groupSum (records : List Record) (key : Record → String) (k : String) : ℚ :=
  ((records.filter (fun r => decide (key r = k))).map Record.Amount).sum

/-- `groupby(col)["Amount"].sum().reset_index()`: one (key, total) row
per distinct key. -/
def sum_by (records : List Record) (key : Record → String) : List (String × ℚ) :=
  (groupKeys records key).map (fun k => (k, groupSum records key k))

/-- Line 75: `filtered_df.groupby("customer_segment")["Amount"].sum().reset_index()`. -/
def sales_by_segment (records : List Record) : List (String × ℚ) :=
  sum_by records Record.customer_segment

/-- Line 98: `filtered_df.groupby("businessindustrytype")["Amount"].sum().reset_index()`. -/
def industry_sales (records : List Record) : List (String × ℚ) :=
  sum_by records Record.businessindustrytype

/-- Line 87: the weekday category list. -/
def day_order : List String :=
  ["Monday", "Tuesday", "Wednesday", "Thursday", "Friday", "Saturday", "Sunday"]

/-- Lines 126-129: the month category list. -/
def month_order : List String :=
  ["January", "February", "March", "April", "May", "June",
   "July", "August", "September", "October", "November", "December"]

/-- The categorical code of a month name: its position in `month_order`
(names outside the list sort after all twelve, as pandas NaN does). -/
def monthIndex (m : String) : Nat := List.indexOf m month_order

/-- `pd.Categorical(col, categories=order, ordered=True)` followed by
`sort_values(col)`: a stable sort of the aggregation rows by the position
of the key in the category list. -/
def sortByCategory (catIndex : String → Nat) (agg : List (String × ℚ)) :
    List (String × ℚ) :=
  agg.mergeSort (fun a b => decide (catIndex a.1 ≤ catIndex b.1))

/-- Lines 86-89: the weekday aggregation re-ordered Monday → Sunday. -/
def sales_by_day (records : List Record) : List (String × ℚ) :=
  sortByCategory (fun d => List.indexOf d day_order) (sum_by records Record.Day_Name)

/-- Lines 125-131: the month aggregation re-ordered January → December. -/
def monthly_trend (records : List Record) : List (String × ℚ) :=
  sortByCategory monthIndex (sum_by records Record.Month)

/-- `agg.sort_values('Amount', ascending=False)` (lines 149-151): the
aggregation rows sorted by descending total. -/
def sort_values_desc (agg : List (String × ℚ)) : List (String × ℚ) :=
  agg.mergeSort (fun a b => decide (b.2 ≤ a.2))

/-- `agg.sort_values('Amount', ascending=False).iloc[0,0]` (lines
149-151): the key of the first row of the descending sort.  On an empty
aggregation `.iloc[0,0]` raises `IndexError`, modelled by the error
branch. -/
def insight_top (agg : List (String × ℚ)) : Except String String :=
  match sort_values_desc agg with
  | [] => Except.error "IndexError"
  | p :: _ => Except.ok p.1

/-- A sample transaction row (spec §8 scenario data). -/
def sampleRecord : Record :=
  { Date := 738157, Amount := 100, customer_segment := "SegA",
    businessindustrytype := "Tech", Year := 2023, Month := "January",
    Day_Name := "Monday" }

-- ## Shared lemmas

/-- An empty selection list on any of the three dimensions makes the
`query` predicate vacuously false, so the filtered frame is empty. -/
theorem filtered_df_of_empty_selection (df : List Record) (years : List Int)
    (segments industries : List String)
    (h : years = [] ∨ segments = [] ∨ industries = []) :
    filtered_df df years segments industries = [] := by
  apply List.filter_eq_nil_iff.mpr
  intro r hr
  rcases h with h | h | h <;> subst h <;> simp

theorem groupKeys_nodup (records : List Record) (key : Record → String) :
    (groupKeys records key).Nodup :=
  ((List.mergeSort_perm _ _).nodup_iff).mpr (List.nodup_dedup _)

theorem mem_groupKeys {records : List Record} {key : Record → String} {k : String} :
    k ∈ groupKeys records key ↔ k ∈ records.map key := by
  unfold groupKeys
  rw [(List.mergeSort_perm _ _).mem_iff, List.mem_dedup]

theorem sum_by_map_fst (records : List Record) (key : Record → String) :
    (sum_by records key).map Prod.fst = groupKeys records key := by
  rw [sum_by, List.map_map]
  exact (List.map_congr_left (fun a _ => rfl)).trans (List.map_id _)

-- ## Claims

/-- Claim C3: a record is in the filtered set iff it is in the input and
its year, segment and industry each belong to the corresponding
selection (conjunction across dimensions, membership within each). -/
theorem C3_filter_membership (df : List Record) (years : List Int)
    (segments industries : List String) (r : Record) :
    r ∈ filtered_df df years segments industries ↔
      r ∈ df ∧ r.Year ∈ years ∧ r.customer_segment ∈ segments ∧
        r.businessindustrytype ∈ industries := by
  simp [filtered_df, List.mem_filter, and_assoc]

/-- Claim C4: if any of the three selection lists is empty, the filtered
set is empty — there is no implicit select-all fallback. -/
theorem C4_empty_selection (df : List Record) (years : List Int)
    (segments industries : List String)
    (h : years = [] ∨ segments = [] ∨ industries = []) :
    filtered_df df years segments industries = [] :=
  filtered_df_of_empty_selection df years segments industries h

/-- Witness for C4 at a concrete input: an empty year selection empties
the result even though the record matches the other two dimensions. -/
theorem C4_empty_selection_witness :
    (([] : List Int) = [] ∨ (["SegA"] : List String) = [] ∨
        (["Tech"] : List String) = []) ∧
      filtered_df [sampleRecord] [] ["SegA"] ["Tech"] = [] :=
  ⟨Or.inl rfl, C4_empty_selection [sampleRecord] [] ["SegA"] ["Tech"] (Or.inl rfl)⟩

/-- Claim C6: applying the filter twice with the same selections equals
applying it once. -/
theorem C6_filter_idempotent (df : List Record) (years : List Int)
    (segments industries : List String) :
    filtered_df (filtered_df df years segments industries) years segments industries =
      filtered_df df years segments industries := by
  apply List.filter_eq_self.mpr
  intro r hr
  exact (List.mem_filter.mp hr).2

/-- Claim C9: the filtered set is a sublist of the input: the filter
keeps the input's relative order (it is a stable, order-preserving
selection, not a re-sort) and, being a pure function of the input list,
leaves the input itself untouched. -/
theorem C9_filter_order_preserving (df : List Record) (years : List Int)
    (segments industries : List String) :
    (filtered_df df years segments industries).Sublist df :=
  List.filter_sublist df

/-- Claim C1 (code behaviour at the failing input): on an empty filtered
set — here forced by an empty segment selection — `avg_transaction` is
the pandas NaN, not an explicit undefined marker: the NaN flows into the
`f"${avg_transaction:,.2f}"` metric string of line 68. -/
theorem C1_mean_of_empty_is_nan (df : List Record) (years : List Int)
    (industries : List String) :
    avg_transaction (filtered_df df years [] industries) = PdFloat.nan := by
  rw [filtered_df_of_empty_selection df years [] industries (Or.inr (Or.inl rfl))]
  rfl

/-- Claim C2 (code behaviour at the failing input): on an empty filtered
set the segment aggregation is empty and the insight-summary expression
`sales_by_segment.sort_values('Amount', ascending=False).iloc[0,0]`
raises `IndexError` instead of returning an undefined marker. -/
theorem C2_top_segment_raises (df : List Record) (years : List Int)
    (industries : List String) :
    insight_top (sales_by_segment (filtered_df df years [] industries)) =
      Except.error "IndexError" := by
  rw [filtered_df_of_empty_selection df years [] industries (Or.inr (Or.inl rfl))]
  simp [insight_top, sales_by_segment, sum_by, groupKeys, sort_values_desc]

/-- Summing `if a = k then x else 0` over a duplicate-free key list that
contains `a` yields `x`. -/
theorem sum_map_ite_eq {ks : List String} {a : String} (x : ℚ)
    (hnd : ks.Nodup) (ha : a ∈ ks) :
    (ks.map (fun k => if a = k then x else 0)).sum = x := by
  induction ks with
  | nil => cases ha
  | cons b t ih =>
    have hb : b ∉ t := (List.nodup_cons.mp hnd).1
    have hnd' : t.Nodup := (List.nodup_cons.mp hnd).2
    rcases List.mem_cons.mp ha with h | h
    · subst h
      have hzero : (t.map (fun k => if a = k then x else 0)).sum = 0 := by
        apply List.sum_eq_zero
        intro y hy
        rcases List.mem_map.mp hy with ⟨k, hk, hky⟩
        rw [← hky, if_neg]
        intro he
        exact hb (he ▸ hk)
      rw [List.map_cons, List.sum_cons, if_pos rfl, hzero, add_zero]
    · simp only [List.map_cons, List.sum_cons]
      rw [if_neg, ih hnd' h, zero_add]
      intro he
      exact hb (he ▸ h)

/-- Adding a record to the frame adds its amount to exactly the group it
keys into. -/
theorem groupSum_cons (r : Record) (t : List Record) (key : Record → String)
    (k : String) :
    groupSum (r :: t) key k =
      (if key r = k then r.Amount else 0) + groupSum t key k := by
  by_cases h : key r = k
  · simp [groupSum, List.filter_cons, h]
  · simp [groupSum, List.filter_cons, h]

/-- Partition law: summing the per-group totals over any duplicate-free
key list that covers every record's key recovers the total amount. -/
theorem sum_groupSum (key : Record → String) :
    ∀ (records : List Record) (ks : List String), ks.Nodup →
      (∀ r ∈ records, key r ∈ ks) →
      (ks.map (fun k => groupSum records key k)).sum =
        (records.map Record.Amount).sum := by
  intro records
  induction records with
  | nil =>
    intro ks _ _
    simp [groupSum]
  | cons r t ih =>
    intro ks hnd hmem
    have hkey : key r ∈ ks := hmem r (List.mem_cons_self r t)
    calc (ks.map fun k => groupSum (r :: t) key k).sum
        = (ks.map fun k =>
            (if key r = k then r.Amount else 0) + groupSum t key k).sum := by
          congr 1
          exact List.map_congr_left (fun k _ => groupSum_cons r t key k)
      _ = (ks.map fun k => if key r = k then r.Amount else 0).sum +
            (ks.map fun k => groupSum t key k).sum := List.sum_map_add
      _ = r.Amount + (t.map Record.Amount).sum := by
          rw [sum_map_ite_eq r.Amount hnd hkey,
            ih ks hnd (fun x hx => hmem x (List.mem_cons_of_mem r hx))]
      _ = ((r :: t).map Record.Amount).sum := by simp

/-- The totals column of a `sum_by` aggregation sums to the total amount
of the aggregated records. -/
theorem sum_by_conservation (records : List Record) (key : Record → String) :
    ((sum_by records key).map Prod.snd).sum = (records.map Record.Amount).sum := by
  have hmap : (sum_by records key).map Prod.snd =
      (groupKeys records key).map (fun k => groupSum records key k) := by
    rw [sum_by, List.map_map]
    rfl
  rw [hmap]
  exact sum_groupSum key records (groupKeys records key)
    (groupKeys_nodup records key)
    (fun r hr => mem_groupKeys.mpr (List.mem_map_of_mem key hr))

/-- Claim C5: the Total Revenue KPI over the filtered frame equals the
sum of the per-segment totals of the segment aggregation of the same
frame (aggregation conservation). -/
theorem C5_aggregation_conservation (df : List Record) (years : List Int)
    (segments industries : List String) :
    total_sales (filtered_df df years segments industries) =
      ((sales_by_segment (filtered_df df years segments industries)).map
          Prod.snd).sum := by
  rw [total_sales, sales_by_segment, sum_by_conservation]

/-- Claim C10: the Active Segments KPI (`nunique` of the segment column)
equals the number of rows of the segment aggregation, i.e. the number of
bars of the segment chart. -/
theorem C10_segment_count_matches_bars (df : List Record) (years : List Int)
    (segments industries : List String) :
    total_customers (filtered_df df years segments industries) =
      (sales_by_segment (filtered_df df years segments industries)).length := by
  rw [total_customers, sales_by_segment, sum_by, List.length_map, groupKeys,
    (List.mergeSort_perm _ _).length_eq]

/-- The descending `sort_values` is a permutation of its input. -/
theorem sort_values_desc_perm (agg : List (String × ℚ)) :
    (sort_values_desc agg).Perm agg :=
  List.mergeSort_perm agg _

/-- The descending `sort_values` is sorted by non-increasing total. -/
theorem sort_values_desc_sorted (agg : List (String × ℚ)) :
    (sort_values_desc agg).Pairwise (fun a b => b.2 ≤ a.2) := by
  have h := @List.sorted_mergeSort (String × ℚ)
    (fun a b => decide (b.2 ≤ a.2))
    (fun a b c hab hbc => by
      simp only [decide_eq_true_eq] at hab hbc ⊢
      exact le_trans hbc hab)
    (fun a b => by
      simp only [Bool.or_eq_true, decide_eq_true_eq]
      exact le_total b.2 a.2)
    agg
  exact h.imp (fun hab => by simpa using hab)

/-- The first row of the descending sort is a row of the aggregation and
attains the maximum total. -/
theorem sort_values_desc_head {agg : List (String × ℚ)} {p : String × ℚ}
    {rest : List (String × ℚ)} (h : sort_values_desc agg = p :: rest) :
    p ∈ agg ∧ ∀ q ∈ agg, q.2 ≤ p.2 := by
  have hperm : (sort_values_desc agg).Perm agg := sort_values_desc_perm agg
  have hsorted := sort_values_desc_sorted agg
  rw [h] at hperm hsorted
  refine ⟨hperm.mem_iff.mp (List.mem_cons_self p rest), ?_⟩
  intro q hq
  rcases List.mem_cons.mp (hperm.mem_iff.mpr hq) with rfl | hq2
  · exact le_refl _
  · exact (List.pairwise_cons.mp hsorted).1 q hq2

/-- Claim C8: when several keys share the maximum total, the insight
top-key selection is deterministic and stable: it is a pure function of
the aggregation (identical inputs give identical winners), and the
winner it returns is a key of the aggregation attaining the maximum
total. -/
theorem C8_top_key_tie_deterministic (agg agg2 : List (String × ℚ))
    (heq : agg2 = agg)
    (htie : ∃ p ∈ agg, ∃ q ∈ agg, p.1 ≠ q.1 ∧ p.2 = q.2 ∧ ∀ r ∈ agg, r.2 ≤ p.2) :
    insight_top agg2 = insight_top agg ∧
      ∃ k, insight_top agg = Except.ok k ∧
        ∃ v, (k, v) ∈ agg ∧ ∀ r ∈ agg, r.2 ≤ v := by
  subst heq
  refine ⟨rfl, ?_⟩
  obtain ⟨p, hp, -⟩ := htie
  cases hsd : sort_values_desc agg2 with
  | nil =>
    have hnil : agg2 = [] := by
      have hperm : (sort_values_desc agg2).Perm agg2 := sort_values_desc_perm agg2
      rw [hsd] at hperm
      exact hperm.symm.eq_nil
    rw [hnil] at hp
    cases hp
  | cons hd tl =>
    obtain ⟨hmem, hmax⟩ := sort_values_desc_head hsd
    refine ⟨hd.1, ?_, hd.2, ?_, hmax⟩
    · simp [insight_top, hsd]
    · simpa using hmem

/-- A concrete aggregation with a two-way tie at the maximum. -/
def tieAgg : List (String × ℚ) := [("SegA", 5), ("SegB", 5)]

/-- The tie hypothesis holds at `tieAgg`. -/
theorem tieAgg_tie :
    ∃ p ∈ tieAgg, ∃ q ∈ tieAgg, p.1 ≠ q.1 ∧ p.2 = q.2 ∧ ∀ r ∈ tieAgg, r.2 ≤ p.2 := by
  refine ⟨("SegA", (5 : ℚ)), ?_, ("SegB", (5 : ℚ)), ?_, ?_, rfl, ?_⟩
  · simp [tieAgg]
  · simp [tieAgg]
  · simp
  · intro r hr
    simp only [tieAgg, List.mem_cons, List.not_mem_nil] at hr
    rcases hr with rfl | rfl | h
    · exact le_refl _
    · exact le_refl _
    · cases h

/-- Witness for C8 at the concrete tie `tieAgg`. -/
theorem C8_witness :
    tieAgg = tieAgg ∧
      (∃ p ∈ tieAgg, ∃ q ∈ tieAgg, p.1 ≠ q.1 ∧ p.2 = q.2 ∧
        ∀ r ∈ tieAgg, r.2 ≤ p.2) ∧
      (insight_top tieAgg = insight_top tieAgg ∧
        ∃ k, insight_top tieAgg = Except.ok k ∧
          ∃ v, (k, v) ∈ tieAgg ∧ ∀ r ∈ tieAgg, r.2 ≤ v) :=
  ⟨rfl, tieAgg_tie, C8_top_key_tie_deterministic tieAgg tieAgg rfl tieAgg_tie⟩

/-- The twelve month names are pairwise distinct. -/
theorem month_order_nodup : month_order.Nodup := by decide

/-- Along `month_order` the categorical codes strictly increase. -/
theorem month_order_pairwise_lt :
    month_order.Pairwise (fun a b => monthIndex a < monthIndex b) := by decide

/-- Claim C7: for any record set whose month names are calendar months,
the keys of the month aggregation are exactly the months present in the
set, in canonical January → December order (months absent from the set
are omitted, never zero-filled), independently of the input row order. -/
theorem C7_monthly_trend_canonical (records : List Record)
    (h : ∀ r ∈ records, r.Month ∈ month_order) :
    (monthly_trend records).map Prod.fst =
      month_order.filter (fun m => records.any (fun r => decide (r.Month = m))) := by
  have hperm0 : (monthly_trend records).Perm (sum_by records Record.Month) :=
    List.mergeSort_perm _ _
  have hpermL : ((monthly_trend records).map Prod.fst).Perm
      (groupKeys records Record.Month) := by
    have hm := hperm0.map Prod.fst
    rwa [sum_by_map_fst] at hm
  have hLnd : ((monthly_trend records).map Prod.fst).Nodup :=
    hpermL.nodup_iff.mpr (groupKeys_nodup _ _)
  have hLmem : ∀ x, x ∈ (monthly_trend records).map Prod.fst ↔
      ∃ r ∈ records, r.Month = x := by
    intro x
    rw [hpermL.mem_iff, mem_groupKeys]
    simp
  have hRnd : (month_order.filter
      (fun m => records.any (fun r => decide (r.Month = m)))).Nodup :=
    month_order_nodup.filter _
  have hRmem : ∀ x, x ∈ month_order.filter
      (fun m => records.any (fun r => decide (r.Month = m))) ↔
      x ∈ month_order ∧ ∃ r ∈ records, r.Month = x := by
    intro x
    simp [List.mem_filter]
  have hsame : ∀ x, x ∈ (monthly_trend records).map Prod.fst ↔
      x ∈ month_order.filter (fun m => records.any (fun r => decide (r.Month = m))) := by
    intro x
    rw [hLmem, hRmem]
    constructor
    · rintro ⟨r, hr, rfl⟩
      exact ⟨h r hr, r, hr, rfl⟩
    · rintro ⟨-, hx⟩
      exact hx
  have hperm : ((monthly_trend records).map Prod.fst).Perm
      (month_order.filter (fun m => records.any (fun r => decide (r.Month = m)))) :=
    (List.perm_ext_iff_of_nodup hLnd hRnd).mpr hsame
  have hpwT : (monthly_trend records).Pairwise
      (fun a b => monthIndex a.1 ≤ monthIndex b.1) := by
    have hs := @List.sorted_mergeSort (String × ℚ)
      (fun a b => decide (monthIndex a.1 ≤ monthIndex b.1))
      (fun a b c hab hbc => by
        simp only [decide_eq_true_eq] at hab hbc ⊢
        exact le_trans hab hbc)
      (fun a b => by
        simp only [Bool.or_eq_true, decide_eq_true_eq]
        exact Nat.le_total _ _)
      (sum_by records Record.Month)
    exact hs.imp (fun hab => by simpa using hab)
  have hpwL : ((monthly_trend records).map Prod.fst).Pairwise
      (fun a b => monthIndex a ≤ monthIndex b) :=
    List.pairwise_map.mpr hpwT
  have hmemMO : ∀ x ∈ (monthly_trend records).map Prod.fst, x ∈ month_order := by
    intro x hx
    obtain ⟨r, hr, rfl⟩ := (hLmem x).mp hx
    exact h r hr
  have hLlt : ((monthly_trend records).map Prod.fst).Pairwise
      (fun a b => monthIndex a < monthIndex b) := by
    refine (hpwL.and hLnd).imp_of_mem ?_
    intro a b ha hb hab
    refine lt_of_le_of_ne hab.1 (fun hidx => hab.2 ?_)
    exact (List.indexOf_inj (hmemMO a ha) (hmemMO b hb)).mp hidx
  have hRlt : (month_order.filter
      (fun m => records.any (fun r => decide (r.Month = m)))).Pairwise
      (fun a b => monthIndex a < monthIndex b) :=
    List.Pairwise.filter _ month_order_pairwise_lt
  haveI : IsAntisymm String (fun a b => monthIndex a < monthIndex b) :=
    ⟨fun a b h1 h2 => absurd (Nat.lt_trans h1 h2) (Nat.lt_irrefl _)⟩
  exact List.eq_of_perm_of_sorted hperm hLlt hRlt

/-- A transaction row carrying a given month name. -/
def monthRecord (m : String) : Record :=
  { Date := 0, Amount := 10, customer_segment := "SegA",
    businessindustrytype := "Tech", Year := 2023, Month := m,
    Day_Name := "Monday" }

/-- Twelve rows covering every month, deliberately out of calendar
order. -/
def allMonthsRecords : List Record :=
  (["July", "January", "December", "March", "November", "February",
    "May", "October", "April", "September", "June", "August"]).map monthRecord

/-- Witness for C7: on the shuffled twelve-month input the aggregation
keys come out January → December. -/
theorem C7_witness :
    (∀ r ∈ allMonthsRecords, r.Month ∈ month_order) ∧
      (monthly_trend allMonthsRecords).map Prod.fst =
        month_order.filter
          (fun m => allMonthsRecords.any (fun r => decide (r.Month = m))) :=
  ⟨by decide, C7_monthly_trend_canonical allMonthsRecords (by decide)⟩
